import Mathlib

/-!
Verification of the core of `git-remote-run` (`git_remote_run/remote.py`):
the `Remote` class with its `run`, `sudo` and `run_or_sudo` methods.

The external process boundary (`subprocess.run` of `git archive`) and the
tar container parsing (`tarfile`) are modelled as an oracle: a process
response carries the client's exit status, the named entries of the tar
archive found on its standard output, and the bytes of its error channel.
Everything the Python code itself does with that response — the two
assertions, the decoding loop building the result dictionary, `shlex.quote`,
`int()` parsing, and the sudo probe/retry control flow — is embedded
faithfully below.
-/

namespace GitRemoteRun

/-- Raw bytes, as byte values 0..255. -/
abbrev Bytes := List Nat

/-- Values held by the Python result dictionary: raw archive bytes, the
parsed integer exit code, or the command string stored under `cmd`. -/
inductive Value where
  | bytes (b : Bytes)
  | int (i : Int)
  | str (s : String)
deriving DecidableEq

/-- The result dictionary (`inner_result` in the source): insertion-ordered
string-keyed mapping, later assignments overwriting in place. -/
abbrev Dict := List (String × Value)

/-- Assignment `d[k] = v` with Python dict semantics: overwrite in place if
the key exists, else append. -/
def dictSet : Dict → String → Value → Dict
  | [], k, v => [(k, v)]
  | (k2, v2) :: rest, k, v =>
    if k2 = k then (k, v) :: rest else (k2, v2) :: dictSet rest k v

/-- Lookup `d[k]`, first (hence unique) occurrence. -/
def dictGet : Dict → String → Option Value
  | [], _ => none
  | (k2, v) :: rest, k => if k2 = k then some v else dictGet rest k

/-- Membership test `k in d`. -/
def dictHas (d : Dict) (k : String) : Bool :=
  (dictGet d k).isSome

/-- Whitespace bytes stripped by Python's `int()`. -/
def isPySpace (c : Nat) : Bool :=
  c = 32 || c = 9 || c = 10 || c = 13 || c = 11 || c = 12

/-- ASCII decimal digit byte. -/
def isDigitByte (c : Nat) : Bool :=
  48 ≤ c && c ≤ 57

/-- Strip leading and trailing Python whitespace from a byte string. -/
def stripBytes (b : Bytes) : Bytes :=
  ((b.dropWhile isPySpace).reverse.dropWhile isPySpace).reverse

/-- Digit-run accumulator for `int()`: decimal digits, single underscores
allowed only between digits. -/
def pyDigits (acc : Nat) : Bytes → Option Nat
  | [] => some acc
  | c :: rest =>
    if isDigitByte c then pyDigits (acc * 10 + (c - 48)) rest
    else if c = 95 then
      match rest with
      | [] => none
      | d :: rest2 =>
        if isDigitByte d then pyDigits (acc * 10 + (d - 48)) rest2 else none
    else none

/-- Python `int(value)` on an ASCII byte string: optional surrounding
whitespace, optional sign, then a nonempty digit run; `none` models the
`ValueError` raised on malformed input such as `b"abc"` or `b""`. -/
def pyInt (b : Bytes) : Option Int :=
  let s := stripBytes b
  match s with
  | [] => none
  | c :: rest =>
    let core := if c = 43 || c = 45 then rest else s
    match core with
    | [] => none
    | d :: _ =>
      if isDigitByte d then
        (pyDigits 0 core).map (fun n => if c = 45 then -(n : Int) else (n : Int))
      else none

/-- Errors the Python methods can raise: the two `assert` statements in
`run` (an `AssertionError` carrying the decoded stderr only when the first
assertion fails), the `ValueError` from `int()` while decoding, and the
`KeyError` from `result[...]` in `run_or_sudo`. -/
inductive Err where
  | launchError (diag : Option Bytes)
  | decodeError (raw : Bytes)
  | keyError (key : String)
deriving DecidableEq

/-- Response of one `subprocess.run` of the `git archive` client: its exit
status, the named file entries of the tar archive on its stdout, and its
stderr bytes. -/
structure ProcResult where
  returncode : Int
  archive : List (String × Bytes)
  stderr : Bytes
deriving DecidableEq

/-- One step of the decoding loop body in `Remote.run`: parse `exitcode`
entries with `int()` (failure raises), store every entry under its name. -/
def decodeEntry (d : Dict) (e : String × Bytes) : Except Err Dict :=
  if e.1 = "exitcode" then
    match pyInt e.2 with
    | none => .error (.decodeError e.2)
    | some i => .ok (dictSet d e.1 (.int i))
  else
    .ok (dictSet d e.1 (.bytes e.2))

/-- The decoding loop of `Remote.run`, iterating over archive entries; an
error raised at any entry aborts the loop. -/
def decodeEntries (d : Dict) : List (String × Bytes) → Except Err Dict
  | [] => .ok d
  | e :: rest => (decodeEntry d e).bind (fun d2 => decodeEntries d2 rest)

/-- Decoding of a whole archive in `Remote.run`: start from
`inner_result = \x7b'cmd': script\x7d` and fold the loop over the entries. -/
def decodeArchive (script : String) (entries : List (String × Bytes)) : Except Err Dict :=
  decodeEntries [("cmd", Value.str script)] entries

/-- The body of `Remote.run` after the subprocess call: assert exit status
zero (attaching stderr as the assertion message), assert empty stderr (no
message attached), then decode the archive. -/
def runProc (script : String) (pr : ProcResult) : Except Err Dict :=
  if pr.returncode ≠ 0 then .error (.launchError (some pr.stderr))
  else if pr.stderr ≠ [] then .error (.launchError none)
  else decodeArchive script pr.archive

/-- Characters `shlex.quote` leaves unquoted: ASCII word characters and
`@ % + = : , .` as well as slash and dash. -/
def shSafeChar (c : Char) : Bool :=
  (97 ≤ c.toNat && c.toNat ≤ 122) || (65 ≤ c.toNat && c.toNat ≤ 90) ||
  (48 ≤ c.toNat && c.toNat ≤ 57) ||
  c = '_' || c = '@' || c = '%' || c = '+' || c = '=' || c = ':' ||
  c = ',' || c = '.' || c = '/' || c = '-'

/-- A single-quote character as a string. -/
def sq : String := "\x27"

/-- Python `shlex.quote`. -/
def shQuote (s : String) : String :=
  if s = "" then sq ++ sq
  else if s.toList.all shSafeChar then s
  else sq ++ (s.replace sq (sq ++ "\"" ++ sq ++ "\"" ++ sq)) ++ sq

/-- A git remote, identified by its name (address string). -/
structure Remote where
  name : String
deriving DecidableEq

/-- The script transformation at the top of `Remote.sudo`: wrap in
`bash -c` when `shell` is set, prepend `-u user` when a user is given. -/
def sudoScript (script : String) (shell : Bool) (user : Option String) : String :=
  let s1 := if shell then "bash -c " ++ shQuote script else script
  match user with
  | some u => "-u " ++ u ++ " " ++ s1
  | none => s1

/-- The passwordless probe invocation built by `Remote.sudo`: the askpass
override is a no-op `touch`, and the prompt names the sentinel file. -/
def probeInvocation (s : String) : String :=
  "SUDO_PROMPT=\"$tempdir/sudo-needs-password\" " ++
  "SUDO_ASKPASS=\"/usr/bin/touch\" " ++
  "sudo --preserve-env --askpass " ++ s

/-- The retry invocation built by `Remote.sudo`: pipe the quoted password
into `sudo --stdin`. -/
def retryInvocation (password s : String) : String :=
  "echo " ++ shQuote password ++ " | sudo --preserve-env --stdin " ++ s

/-- The `getpass` prompt text used by `Remote.sudo`. -/
def sudoPrompt (s name : String) : String :=
  "Enter your password for running `sudo " ++ s ++ "` on " ++ name ++ ":"

/-- The method `Remote.run`, relative to a tunnel oracle giving the process
response to each invocation; also returns the list of tunnel invocations
made (always exactly one). -/
def Remote.run (_ : Remote) (tunnel : String → ProcResult) (script : String) :
    Except Err Dict × List String :=
  (runProc script (tunnel script), [script])

/-- The method `Remote.sudo`, relative to a tunnel oracle and a `getpass`
oracle; returns the result together with the list of tunnel invocations
made, in order. -/
def Remote.sudo (r : Remote) (tunnel : String → ProcResult) (getpass : String → String)
    (script : String) (shell : Bool) (user : Option String) :
    Except Err Dict × List String :=
  let s := sudoScript script shell user
  let probe := probeInvocation s
  match runProc probe (tunnel probe) with
  | .error e => (.error e, [probe])
  | .ok res =>
    if dictHas res "sudo-needs-password" then
      let password := getpass (sudoPrompt s r.name)
      let retry := retryInvocation password s
      (runProc retry (tunnel retry), [probe, retry])
    else
      (.ok res, [probe])

/-- Python truthiness for the values a result dictionary can hold, as used
by `if result['exitcode']:`. -/
def pyTruthy : Value → Bool
  | .bytes b => !b.isEmpty
  | .int i => i != 0
  | .str s => s != ""

/-- The method `Remote.run_or_sudo`: run unprivileged, and on a truthy
`exitcode` discard that result and return `sudo`'s instead; returns the
result together with the list of tunnel invocations made, in order. -/
def Remote.runOrSudo (r : Remote) (tunnel : String → ProcResult) (getpass : String → String)
    (script : String) (shell : Bool) : Except Err Dict × List String :=
  match runProc script (tunnel script) with
  | .error e => (.error e, [script])
  | .ok res =>
    match dictGet res "exitcode" with
    | none => (.error (.keyError "exitcode"), [script])
    | some v =>
      if pyTruthy v then
        let out := r.sudo tunnel getpass script shell none
        (out.1, script :: out.2)
      else
        (.ok res, [script])

/-- State-passing view of `Remote.run`: the method body contains no
assignment to `self`, so the post-state is the receiver itself. -/
def Remote.runSt (r : Remote) (tunnel : String → ProcResult) (script : String) :
    (Except Err Dict × List String) × Remote :=
  (r.run tunnel script, r)

/-- State-passing view of `Remote.sudo`. -/
def Remote.sudoSt (r : Remote) (tunnel : String → ProcResult) (getpass : String → String)
    (script : String) (shell : Bool) (user : Option String) :
    (Except Err Dict × List String) × Remote :=
  (r.sudo tunnel getpass script shell user, r)

/-- State-passing view of `Remote.run_or_sudo`. -/
def Remote.runOrSudoSt (r : Remote) (tunnel : String → ProcResult) (getpass : String → String)
    (script : String) (shell : Bool) :
    (Except Err Dict × List String) × Remote :=
  (r.runOrSudo tunnel getpass script shell, r)

/-! ### Dictionary lemmas -/

theorem dictGet_dictSet_same (d : Dict) (k : String) (v : Value) :
    dictGet (dictSet d k v) k = some v := by
  induction d with
  | nil => simp [dictSet, dictGet]
  | cons p rest ih =>
    obtain ⟨k2, v2⟩ := p
    by_cases h : k2 = k
    · simp [dictSet, dictGet, h]
    · simp [dictSet, dictGet, h, ih]

theorem dictGet_dictSet_other (d : Dict) (k k2 : String) (v : Value) (h : k ≠ k2) :
    dictGet (dictSet d k v) k2 = dictGet d k2 := by
  induction d with
  | nil => simp [dictSet, dictGet, h]
  | cons p rest ih =>
    obtain ⟨k3, v3⟩ := p
    by_cases h3 : k3 = k
    · subst h3
      simp [dictSet, dictGet, h]
    · simp [dictSet, dictGet, h3, ih]

theorem dictHas_dictSet (d : Dict) (k k2 : String) (v : Value) :
    dictHas (dictSet d k v) k2 = (k == k2 || dictHas d k2) := by
  by_cases h : k = k2
  · subst h
    simp [dictHas, dictGet_dictSet_same]
  · simp [dictHas, dictGet_dictSet_other d k k2 v h, h]

/-! ### Decoding-loop lemmas -/

theorem decodeEntry_exit_ok (d : Dict) (e : String × Bytes) (i : Int)
    (hn : e.1 = "exitcode") (hv : pyInt e.2 = some i) :
    decodeEntry d e = .ok (dictSet d e.1 (.int i)) := by
  simp [decodeEntry, hn, hv]

theorem decodeEntry_exit_bad (d : Dict) (e : String × Bytes)
    (hn : e.1 = "exitcode") (hv : pyInt e.2 = none) :
    decodeEntry d e = .error (.decodeError e.2) := by
  simp [decodeEntry, hn, hv]

theorem decodeEntry_other (d : Dict) (e : String × Bytes) (hn : e.1 ≠ "exitcode") :
    decodeEntry d e = .ok (dictSet d e.1 (.bytes e.2)) := by
  simp [decodeEntry, hn]

theorem decodeEntries_ok_iff (A : List (String × Bytes)) (d : Dict) :
    (decodeEntries d A).isOk =
      A.all (fun e => e.1 != "exitcode" || (pyInt e.2).isSome) := by
  induction A generalizing d with
  | nil => rfl
  | cons e rest ih =>
    by_cases hn : e.1 = "exitcode"
    · cases hv : pyInt e.2 with
      | none =>
        rw [decodeEntries, decodeEntry_exit_bad d e hn hv]
        simp [Except.bind, Except.isOk, Except.toBool, hn, hv]
      | some i =>
        rw [decodeEntries, decodeEntry_exit_ok d e i hn hv]
        simp [Except.bind, ih, hn, hv]
    · rw [decodeEntries, decodeEntry_other d e hn]
      simp [Except.bind, ih, hn]

theorem decodeEntries_hasKey (A : List (String × Bytes)) (d r : Dict)
    (h : decodeEntries d A = .ok r) (k : String) :
    dictHas r k = (dictHas d k || A.any (fun e => e.1 == k)) := by
  induction A generalizing d with
  | nil =>
    simp only [decodeEntries, Except.ok.injEq] at h
    subst h
    simp
  | cons e rest ih =>
    by_cases hn : e.1 = "exitcode"
    · cases hv : pyInt e.2 with
      | none =>
        rw [decodeEntries, decodeEntry_exit_bad d e hn hv] at h
        simp [Except.bind] at h
      | some i =>
        rw [decodeEntries, decodeEntry_exit_ok d e i hn hv] at h
        simp only [Except.bind] at h
        rw [ih _ h, dictHas_dictSet]
        simp [Bool.or_assoc, Bool.or_comm (e.1 == k)]
    · rw [decodeEntries, decodeEntry_other d e hn] at h
      simp only [Except.bind] at h
      rw [ih _ h, dictHas_dictSet]
      simp [Bool.or_assoc, Bool.or_comm (e.1 == k)]

theorem decodeEntries_get_absent (A : List (String × Bytes)) (d r : Dict)
    (h : decodeEntries d A = .ok r) (k : String) (hk : ∀ e ∈ A, e.1 ≠ k) :
    dictGet r k = dictGet d k := by
  induction A generalizing d with
  | nil =>
    simp only [decodeEntries, Except.ok.injEq] at h
    subst h
    rfl
  | cons e rest ih =>
    have hek : e.1 ≠ k := hk e (List.mem_cons_self _ _)
    have hrest : ∀ e2 ∈ rest, e2.1 ≠ k := fun e2 he2 => hk e2 (List.mem_cons_of_mem _ he2)
    by_cases hn : e.1 = "exitcode"
    · cases hv : pyInt e.2 with
      | none =>
        rw [decodeEntries, decodeEntry_exit_bad d e hn hv] at h
        simp [Except.bind] at h
      | some i =>
        rw [decodeEntries, decodeEntry_exit_ok d e i hn hv] at h
        simp only [Except.bind] at h
        rw [ih _ h hrest, dictGet_dictSet_other _ _ _ _ hek]
    · rw [decodeEntries, decodeEntry_other d e hn] at h
      simp only [Except.bind] at h
      rw [ih _ h hrest, dictGet_dictSet_other _ _ _ _ hek]

theorem decodeEntries_get_mem (A : List (String × Bytes)) (d r : Dict)
    (h : decodeEntries d A = .ok r)
    (hp : A.Pairwise (fun a b => a.1 ≠ b.1)) (e : String × Bytes) (he : e ∈ A) :
    dictGet r e.1 =
      (if e.1 = "exitcode" then (pyInt e.2).map Value.int else some (.bytes e.2)) := by
  induction A generalizing d with
  | nil => cases he
  | cons e0 rest ih =>
    rw [List.pairwise_cons] at hp
    rcases List.mem_cons.mp he with rfl | he1
    · have habsent : ∀ e2 ∈ rest, e2.1 ≠ e.1 := fun e2 he2 => (hp.1 e2 he2).symm
      by_cases hn : e.1 = "exitcode"
      · cases hv : pyInt e.2 with
        | none =>
          rw [decodeEntries, decodeEntry_exit_bad d e hn hv] at h
          simp [Except.bind] at h
        | some i =>
          rw [decodeEntries, decodeEntry_exit_ok d e i hn hv] at h
          simp only [Except.bind] at h
          rw [decodeEntries_get_absent rest _ r h e.1 habsent,
            dictGet_dictSet_same, if_pos hn]
          simp [hv]
      · rw [decodeEntries, decodeEntry_other d e hn] at h
        simp only [Except.bind] at h
        rw [decodeEntries_get_absent rest _ r h e.1 habsent,
          dictGet_dictSet_same, if_neg hn]
    · by_cases hn : e0.1 = "exitcode"
      · cases hv : pyInt e0.2 with
        | none =>
          rw [decodeEntries, decodeEntry_exit_bad d e0 hn hv] at h
          simp [Except.bind] at h
        | some i =>
          rw [decodeEntries, decodeEntry_exit_ok d e0 i hn hv] at h
          simp only [Except.bind] at h
          exact ih _ h hp.2 he1
      · rw [decodeEntries, decodeEntry_other d e0 hn] at h
        simp only [Except.bind] at h
        exact ih _ h hp.2 he1

theorem decodeEntries_error_is_decode (A : List (String × Bytes)) (d : Dict) (er : Err)
    (h : decodeEntries d A = .error er) : ∃ raw, er = .decodeError raw := by
  induction A generalizing d with
  | nil => simp [decodeEntries] at h
  | cons e rest ih =>
    by_cases hn : e.1 = "exitcode"
    · cases hv : pyInt e.2 with
      | none =>
        rw [decodeEntries, decodeEntry_exit_bad d e hn hv] at h
        simp only [Except.bind, Except.error.injEq] at h
        exact ⟨e.2, h.symm⟩
      | some i =>
        rw [decodeEntries, decodeEntry_exit_ok d e i hn hv] at h
        simp only [Except.bind] at h
        exact ih _ h
    · rw [decodeEntries, decodeEntry_other d e hn] at h
      simp only [Except.bind] at h
      exact ih _ h

theorem decodeEntries_get_congr (A : List (String × Bytes)) (d1 d2 r1 r2 : Dict) (k : String)
    (h1 : decodeEntries d1 A = .ok r1) (h2 : decodeEntries d2 A = .ok r2)
    (hk : dictGet d1 k = dictGet d2 k) : dictGet r1 k = dictGet r2 k := by
  induction A generalizing d1 d2 with
  | nil =>
    simp only [decodeEntries, Except.ok.injEq] at h1 h2
    subst h1
    subst h2
    exact hk
  | cons e rest ih =>
    by_cases hn : e.1 = "exitcode"
    · cases hv : pyInt e.2 with
      | none =>
        rw [decodeEntries, decodeEntry_exit_bad d1 e hn hv] at h1
        simp [Except.bind] at h1
      | some i =>
        rw [decodeEntries, decodeEntry_exit_ok d1 e i hn hv] at h1
        rw [decodeEntries, decodeEntry_exit_ok d2 e i hn hv] at h2
        simp only [Except.bind] at h1 h2
        refine ih _ _ h1 h2 ?_
        by_cases hkk : e.1 = k
        · subst hkk
          rw [dictGet_dictSet_same, dictGet_dictSet_same]
        · rw [dictGet_dictSet_other _ _ _ _ hkk, dictGet_dictSet_other _ _ _ _ hkk]
          exact hk
    · rw [decodeEntries, decodeEntry_other d1 e hn] at h1
      rw [decodeEntries, decodeEntry_other d2 e hn] at h2
      simp only [Except.bind] at h1 h2
      refine ih _ _ h1 h2 ?_
      by_cases hkk : e.1 = k
      · subst hkk
        rw [dictGet_dictSet_same, dictGet_dictSet_same]
      · rw [dictGet_dictSet_other _ _ _ _ hkk, dictGet_dictSet_other _ _ _ _ hkk]
        exact hk

theorem decodeEntries_exitcode_int (A : List (String × Bytes)) (d r : Dict)
    (h : decodeEntries d A = .ok r)
    (hd : ∀ v, dictGet d "exitcode" = some v → ∃ i, v = .int i) :
    ∀ v, dictGet r "exitcode" = some v → ∃ i, v = .int i := by
  induction A generalizing d with
  | nil =>
    simp only [decodeEntries, Except.ok.injEq] at h
    subst h
    exact hd
  | cons e rest ih =>
    by_cases hn : e.1 = "exitcode"
    · cases hv : pyInt e.2 with
      | none =>
        rw [decodeEntries, decodeEntry_exit_bad d e hn hv] at h
        simp [Except.bind] at h
      | some i =>
        rw [decodeEntries, decodeEntry_exit_ok d e i hn hv] at h
        simp only [Except.bind] at h
        refine ih _ h ?_
        intro w hw
        rw [hn, dictGet_dictSet_same] at hw
        exact ⟨i, (Option.some.inj hw).symm⟩
    · rw [decodeEntries, decodeEntry_other d e hn] at h
      simp only [Except.bind] at h
      refine ih _ h ?_
      intro w hw
      have hne : e.1 ≠ "exitcode" := hn
      rw [dictGet_dictSet_other _ _ _ _ hne] at hw
      exact hd w hw

/-! ### Bridging lemmas about `runProc`, `Remote.sudo` and `Remote.runOrSudo` -/

theorem runProc_ok_elim (script : String) (pr : ProcResult) (d : Dict)
    (h : runProc script pr = .ok d) :
    pr.returncode = 0 ∧ pr.stderr = [] ∧ decodeArchive script pr.archive = .ok d := by
  by_cases h1 : pr.returncode = 0
  · by_cases h2 : pr.stderr = []
    · refine ⟨h1, h2, ?_⟩
      rw [runProc] at h
      simp only [h1, h2] at h
      simpa using h
    · rw [runProc] at h
      simp [h1, h2] at h
  · rw [runProc] at h
    simp [h1] at h

theorem decodeArchive_ok_iff (script : String) (A : List (String × Bytes)) :
    (decodeArchive script A).isOk = true ↔
      ∀ e ∈ A, e.1 = "exitcode" → (pyInt e.2).isSome := by
  rw [decodeArchive, decodeEntries_ok_iff, List.all_eq_true]
  constructor
  · intro h e he hn
    have h2 := h e he
    simp only [hn] at h2
    simpa using h2
  · intro h e he
    by_cases hn : e.1 = "exitcode"
    · simp [hn, h e he hn]
    · simp [hn]

theorem runProc_exitcode_int (script : String) (pr : ProcResult) (d : Dict)
    (h : runProc script pr = .ok d) (hex : ∃ e ∈ pr.archive, e.1 = "exitcode") :
    ∃ i : Int, dictGet d "exitcode" = some (.int i) := by
  obtain ⟨_, _, hdec⟩ := runProc_ok_elim script pr d h
  rw [decodeArchive] at hdec
  have hhas : dictHas d "exitcode" = true := by
    rw [decodeEntries_hasKey _ _ _ hdec "exitcode"]
    obtain ⟨e, he, hn⟩ := hex
    have hany : pr.archive.any (fun e => e.1 == "exitcode") = true := by
      rw [List.any_eq_true]
      exact ⟨e, he, by simp [hn]⟩
    simp [hany]
  rw [dictHas] at hhas
  obtain ⟨v, hv⟩ := Option.isSome_iff_exists.mp hhas
  obtain ⟨i, hi⟩ := decodeEntries_exitcode_int _ _ _ hdec
    (fun w hw => by rw [show dictGet [("cmd", Value.str script)] "exitcode" = none from rfl] at hw; cases hw)
    v hv
  exact ⟨i, hi ▸ hv⟩

theorem Remote.sudo_probe_error (r : Remote) (tunnel : String → ProcResult)
    (gp : String → String) (script : String) (shell : Bool) (user : Option String) (e : Err)
    (hres : runProc (probeInvocation (sudoScript script shell user))
        (tunnel (probeInvocation (sudoScript script shell user))) = .error e) :
    r.sudo tunnel gp script shell user =
      (.error e, [probeInvocation (sudoScript script shell user)]) := by
  simp only [Remote.sudo, hres]

theorem Remote.sudo_probe_ok (r : Remote) (tunnel : String → ProcResult)
    (gp : String → String) (script : String) (shell : Bool) (user : Option String) (res : Dict)
    (hres : runProc (probeInvocation (sudoScript script shell user))
        (tunnel (probeInvocation (sudoScript script shell user))) = .ok res) :
    r.sudo tunnel gp script shell user =
      (if dictHas res "sudo-needs-password" then
        (runProc
           (retryInvocation (gp (sudoPrompt (sudoScript script shell user) r.name))
             (sudoScript script shell user))
           (tunnel (retryInvocation (gp (sudoPrompt (sudoScript script shell user) r.name))
             (sudoScript script shell user))),
         [probeInvocation (sudoScript script shell user),
          retryInvocation (gp (sudoPrompt (sudoScript script shell user) r.name))
            (sudoScript script shell user)])
      else (.ok res, [probeInvocation (sudoScript script shell user)])) := by
  simp only [Remote.sudo, hres]

theorem Remote.runOrSudo_first_error (r : Remote) (tunnel : String → ProcResult)
    (gp : String → String) (script : String) (shell : Bool) (e : Err)
    (hres : runProc script (tunnel script) = .error e) :
    r.runOrSudo tunnel gp script shell = (.error e, [script]) := by
  simp only [Remote.runOrSudo, hres]

theorem Remote.runOrSudo_first_ok (r : Remote) (tunnel : String → ProcResult)
    (gp : String → String) (script : String) (shell : Bool) (res : Dict) (v : Value)
    (hres : runProc script (tunnel script) = .ok res)
    (hget : dictGet res "exitcode" = some v) :
    r.runOrSudo tunnel gp script shell =
      (if pyTruthy v then
        ((r.sudo tunnel gp script shell none).1,
         script :: (r.sudo tunnel gp script shell none).2)
      else (.ok res, [script])) := by
  simp only [Remote.runOrSudo, hres, hget]

/-! ### Claim theorems -/

/-- Claim C1, counterexample: an archive byte stream containing no entry
named `exitcode` does not fail with a decode error — `run`'s decoding
returns an ExecutionResult (which merely lacks the `exitcode` field), so
the claim that decoding fails in that case is false on the code. -/
theorem c1_missing_exitcode_counterexample :
    runProc "true" ⟨0, [("stdout", [104])], []⟩ =
      .ok [("cmd", Value.str "true"), ("stdout", Value.bytes [104])] := rfl

/-- Claim C1 (amended): decoding as part of `run` fails with a decode error
exactly when the archive contains an `exitcode` entry whose bytes are not
parseable as a base-10 integer (such as b"abc"), and then no
ExecutionResult is returned; when the archive contains no `exitcode` entry
at all, decoding succeeds and `run` returns an ExecutionResult that simply
lacks the `exitcode` field. -/
theorem c1_decode_error_characterisation (script : String) (pr : ProcResult)
    (hrc : pr.returncode = 0) (hse : pr.stderr = []) :
    ((runProc script pr).isOk = false ↔
      ∃ e ∈ pr.archive, e.1 = "exitcode" ∧ pyInt e.2 = none)
    ∧ ((∀ e ∈ pr.archive, e.1 ≠ "exitcode") →
        ∃ d, runProc script pr = .ok d ∧ dictGet d "exitcode" = none) := by
  have hrun : runProc script pr = decodeArchive script pr.archive := by
    simp [runProc, hrc, hse]
  constructor
  · rw [hrun, ← Bool.not_eq_true, decodeArchive_ok_iff]
    push_neg
    constructor
    · rintro ⟨e, he, hn, hv⟩
      exact ⟨e, he, hn, Option.not_isSome_iff_eq_none.mp (by simpa using hv)⟩
    · rintro ⟨e, he, hn, hv⟩
      exact ⟨e, he, hn, by simp [hv]⟩
  · intro habs
    have hok : (runProc script pr).isOk = true := by
      rw [hrun, decodeArchive_ok_iff]
      intro e he hn
      exact absurd hn (habs e he)
    cases hres : runProc script pr with
    | error e => rw [hres] at hok; cases hok
    | ok d =>
      refine ⟨d, rfl, ?_⟩
      have hdec : decodeArchive script pr.archive = .ok d := by rw [← hrun, hres]
      rw [decodeArchive] at hdec
      rw [decodeEntries_get_absent _ _ _ hdec _ habs]
      rfl

/-- Claim C1 witness: at the concrete archive with entry
`exitcode: b"abc"`, decoding indeed fails. -/
theorem c1_decode_error_characterisation_witness :
    (runProc "x" ⟨0, [("exitcode", [97, 98, 99])], []⟩).isOk = false :=
  (c1_decode_error_characterisation "x" ⟨0, [("exitcode", [97, 98, 99])], []⟩ rfl rfl).1.mpr
    ⟨("exitcode", [97, 98, 99]), by decide, rfl, rfl⟩

/-- Claim C2, counterexample: for an archive with no `stdout`/`stderr`
entries, the result returned by `run` does not contain those fields at all
(lookup yields nothing) — they are not present as empty byte sequences, so
the claim is false on the code. -/
theorem c2_absent_defaults_counterexample :
    runProc "x" ⟨0, [("exitcode", [48])], []⟩ =
      .ok [("cmd", Value.str "x"), ("exitcode", Value.int 0)]
    ∧ dictGet [("cmd", Value.str "x"), ("exitcode", Value.int 0)] "stdout" = none
    ∧ dictGet [("cmd", Value.str "x"), ("exitcode", Value.int 0)] "stderr" = none :=
  ⟨rfl, rfl, rfl⟩

/-- Claim C2 (amended): when entries named `stdout` or `stderr` are absent
from the archive, the ExecutionResult returned by `run` simply omits those
fields — looking them up yields nothing; absence is not converted into
empty byte sequences. -/
theorem c2_absent_entries_omitted (script : String) (pr : ProcResult) (d : Dict)
    (h : runProc script pr = .ok d)
    (hs : ∀ e ∈ pr.archive, e.1 ≠ "stdout")
    (ht : ∀ e ∈ pr.archive, e.1 ≠ "stderr") :
    dictGet d "stdout" = none ∧ dictGet d "stderr" = none := by
  obtain ⟨_, _, hdec⟩ := runProc_ok_elim script pr d h
  rw [decodeArchive] at hdec
  constructor
  · rw [decodeEntries_get_absent _ _ _ hdec _ hs]
    rfl
  · rw [decodeEntries_get_absent _ _ _ hdec _ ht]
    rfl

/-- Claim C2 witness: at the concrete archive containing only `exitcode`,
the returned result has no `stdout` and no `stderr` field. -/
theorem c2_absent_entries_omitted_witness :
    dictGet [("cmd", Value.str "x"), ("exitcode", Value.int 0)] "stdout" = none
    ∧ dictGet [("cmd", Value.str "x"), ("exitcode", Value.int 0)] "stderr" = none :=
  c2_absent_entries_omitted "x" ⟨0, [("exitcode", [48])], []⟩
    [("cmd", Value.str "x"), ("exitcode", Value.int 0)] rfl (by decide) (by decide)

/-- Claim C3, counterexample: when the client process exits with status
zero but emits diagnostic text (here the single byte b"w") on its error
channel, `run` does fail, but the failure carries no diagnostic text at
all (the second bare `assert` has no message), not the text verbatim as
the claim states. -/
theorem c3_silent_launch_error_counterexample :
    runProc "x" ⟨0, [], [119]⟩ = .error (.launchError none) := rfl

/-- Claim C3 (amended): a nonzero client exit status makes `run` fail with
a launch error carrying the diagnostic text verbatim; a zero exit status
with a non-empty error channel makes `run` fail with a launch error that
carries no diagnostic text; with a zero exit status and empty error
channel no launch error is ever raised. In every launch-error case no
ExecutionResult is produced. -/
theorem c3_launch_error_cases (script : String) (pr : ProcResult) :
    (pr.returncode ≠ 0 → runProc script pr = .error (.launchError (some pr.stderr)))
    ∧ (pr.returncode = 0 → pr.stderr ≠ [] → runProc script pr = .error (.launchError none))
    ∧ (pr.returncode = 0 → pr.stderr = [] →
        ∀ o, runProc script pr ≠ .error (.launchError o)) := by
  refine ⟨?_, ?_, ?_⟩
  · intro h
    simp [runProc, h]
  · intro h1 h2
    simp [runProc, h1, h2]
  · intro h1 h2 o hcontra
    rw [runProc] at hcontra
    simp only [h1, h2] at hcontra
    simp only [ne_eq, not_true_eq_false, if_false] at hcontra
    rw [decodeArchive] at hcontra
    obtain ⟨raw, hraw⟩ := decodeEntries_error_is_decode _ _ _ (by simpa using hcontra)
    cases hraw

/-- Claim C3 witness: at a concrete nonzero client exit with diagnostic
b"w", `run` fails with a launch error carrying exactly those bytes. -/
theorem c3_launch_error_cases_witness :
    runProc "x" ⟨1, [], [119]⟩ = .error (.launchError (some [119])) :=
  (c3_launch_error_cases "x" ⟨1, [], [119]⟩).1 (by decide)

/-- Well-behaved process response: the client exited zero with silent
error channel, and the archive carries an `exitcode` entry that parses as
an integer (of any value). -/
def goodResponse (pr : ProcResult) : Prop :=
  pr.returncode = 0 ∧ pr.stderr = [] ∧
    (∃ e ∈ pr.archive, e.1 = "exitcode") ∧
    (∀ e ∈ pr.archive, e.1 = "exitcode" → (pyInt e.2).isSome)

/-- Claim C4: whenever every tunnel response launches cleanly and returns
an archive whose `exitcode` entry parses as an integer — of any value,
zero or not — `run`, `sudo` and `run_or_sudo` all return normally: a
nonzero user-script exit code is delivered inside a successful
ExecutionResult and never raised as an error. -/
theorem c4_nonzero_exitcode_not_error (tunnel : String → ProcResult)
    (hgood : ∀ s, goodResponse (tunnel s)) (r : Remote) (gp : String → String)
    (script : String) (shell : Bool) (user : Option String) :
    ((r.run tunnel script).1.isOk = true)
    ∧ ((r.sudo tunnel gp script shell user).1.isOk = true)
    ∧ ((r.runOrSudo tunnel gp script shell).1.isOk = true) := by
  have hrunOk : ∀ s : String, (runProc s (tunnel s)).isOk = true := by
    intro s
    obtain ⟨h1, h2, _, h4⟩ := hgood s
    have : runProc s (tunnel s) = decodeArchive s (tunnel s).archive := by
      simp [runProc, h1, h2]
    rw [this, decodeArchive_ok_iff]
    exact h4
  have hok_ex : ∀ s : String, ∃ d, runProc s (tunnel s) = .ok d := by
    intro s
    cases hres : runProc s (tunnel s) with
    | ok d => exact ⟨d, rfl⟩
    | error e =>
      have := hrunOk s
      rw [hres] at this
      cases this
  have hsudo : ∀ u : Option String, (r.sudo tunnel gp script shell u).1.isOk = true := by
    intro u
    obtain ⟨res, hres⟩ := hok_ex (probeInvocation (sudoScript script shell u))
    rw [Remote.sudo_probe_ok r tunnel gp script shell u res hres]
    by_cases hsent : dictHas res "sudo-needs-password" = true
    · rw [if_pos hsent]
      exact hrunOk _
    · rw [if_neg hsent]
      rfl
  refine ⟨hrunOk script, hsudo user, ?_⟩
  obtain ⟨res, hres⟩ := hok_ex script
  obtain ⟨i, hi⟩ := runProc_exitcode_int script (tunnel script) res hres ((hgood script).2.2.1)
  rw [Remote.runOrSudo_first_ok r tunnel gp script shell res _ hres hi]
  by_cases htr : pyTruthy (Value.int i) = true
  · rw [if_pos htr]
    exact hsudo none
  · rw [if_neg htr]
    rfl

/-- Tunnel oracle whose every response reports user exit code 5. -/
def c4Tunnel : String → ProcResult :=
  fun _ => ⟨0, [("exitcode", [53])], []⟩

/-- Claim C4 witness: with every response reporting the nonzero user exit
code 5, `run`, `sudo` and `run_or_sudo` all still return normally. -/
theorem c4_nonzero_exitcode_not_error_witness :
    (((Remote.mk "origin").run c4Tunnel "ls").1.isOk = true)
    ∧ (((Remote.mk "origin").sudo c4Tunnel (fun _ => "pw") "ls" true none).1.isOk = true)
    ∧ (((Remote.mk "origin").runOrSudo c4Tunnel (fun _ => "pw") "ls" true).1.isOk = true) :=
  c4_nonzero_exitcode_not_error c4Tunnel
    (by
      intro s
      refine ⟨rfl, rfl, ⟨("exitcode", [53]), ?_, rfl⟩, ?_⟩
      · simp [c4Tunnel]
      · intro e he hn
        simp only [c4Tunnel, List.mem_singleton] at he
        subst he
        decide)
    ⟨"origin"⟩ (fun _ => "pw") "ls" true none

/-- Claim C5: decoding an archive with entries exactly
`stdout: b"hello", stderr: b"", exitcode: b"0"` for a `run` call with
script S yields the ExecutionResult with command S, stdout b"hello",
empty stderr, and exit code 0. -/
theorem c5_round_trip (S : String) :
    runProc S ⟨0, [("stdout", [104, 101, 108, 108, 111]), ("stderr", []),
        ("exitcode", [48])], []⟩ =
      .ok [("cmd", Value.str S), ("stdout", Value.bytes [104, 101, 108, 108, 111]),
           ("stderr", Value.bytes []), ("exitcode", Value.int 0)] := rfl

/-- Claim C6: in every `sudo` call, at most two tunnel invocations occur
(the probe and at most one retry); if the probe's result contains the
sentinel entry `sudo-needs-password`, exactly one retry happens, built as
the `echo password | sudo --stdin` invocation that feeds the password
through sudo's standard input (not through the SUDO_ASKPASS prompt-program
override of the probe), and the retry's result is returned
unconditionally; if the probe's result lacks the sentinel, the probe
result is returned as-is with no retry. -/
theorem c6_sudo_two_state (r : Remote) (tunnel : String → ProcResult) (gp : String → String)
    (script : String) (shell : Bool) (user : Option String) :
    ((r.sudo tunnel gp script shell user).2.length ≤ 2)
    ∧ (∀ res : Dict,
        runProc (probeInvocation (sudoScript script shell user))
            (tunnel (probeInvocation (sudoScript script shell user))) = .ok res →
        (dictHas res "sudo-needs-password" = true →
          r.sudo tunnel gp script shell user =
            (runProc
               (retryInvocation (gp (sudoPrompt (sudoScript script shell user) r.name))
                 (sudoScript script shell user))
               (tunnel (retryInvocation (gp (sudoPrompt (sudoScript script shell user) r.name))
                 (sudoScript script shell user))),
             [probeInvocation (sudoScript script shell user),
              retryInvocation (gp (sudoPrompt (sudoScript script shell user) r.name))
                (sudoScript script shell user)]))
        ∧ (dictHas res "sudo-needs-password" = false →
          r.sudo tunnel gp script shell user =
            (.ok res, [probeInvocation (sudoScript script shell user)]))) := by
  constructor
  · cases hres : runProc (probeInvocation (sudoScript script shell user))
        (tunnel (probeInvocation (sudoScript script shell user))) with
    | error e =>
      rw [Remote.sudo_probe_error r tunnel gp script shell user e hres]
      simp
    | ok res =>
      rw [Remote.sudo_probe_ok r tunnel gp script shell user res hres]
      by_cases hsent : dictHas res "sudo-needs-password" = true
      · rw [if_pos hsent]
        simp
      · rw [if_neg hsent]
        simp
  · intro res hres
    constructor
    · intro hsent
      rw [Remote.sudo_probe_ok r tunnel gp script shell user res hres, if_pos hsent]
    · intro hsent
      rw [Remote.sudo_probe_ok r tunnel gp script shell user res hres]
      rw [hsent]
      rfl

/-- Tunnel oracle whose every response contains the escalation sentinel. -/
def c6Tunnel : String → ProcResult :=
  fun _ => ⟨0, [("exitcode", [48]), ("sudo-needs-password", [])], []⟩

/-- Claim C6 witness: against a tunnel whose probe response carries the
sentinel, `sudo` performs exactly the probe and one stdin-password retry
and returns the retry's result. -/
theorem c6_sudo_two_state_witness :
    (Remote.mk "origin").sudo c6Tunnel (fun _ => "pw") "ls" true none =
      (runProc (retryInvocation "pw" (sudoScript "ls" true none))
         (c6Tunnel (retryInvocation "pw" (sudoScript "ls" true none))),
       [probeInvocation (sudoScript "ls" true none),
        retryInvocation "pw" (sudoScript "ls" true none)]) :=
  ((c6_sudo_two_state ⟨"origin"⟩ c6Tunnel (fun _ => "pw") "ls" true none).2
      [("cmd", Value.str (probeInvocation (sudoScript "ls" true none))),
       ("exitcode", Value.int 0), ("sudo-needs-password", Value.bytes [])] rfl).1 rfl

/-- Claim C7: for every `run_or_sudo` call whose unprivileged run decodes
successfully, an exit code of 0 means exactly one tunnel invocation occurs,
escalation is never attempted, and that result is returned; a nonzero exit
code means that result is discarded, `sudo` is invoked exactly once on the
same script, and `sudo`'s result is returned instead. -/
theorem c7_run_or_sudo_policy (r : Remote) (tunnel : String → ProcResult) (gp : String → String)
    (script : String) (shell : Bool) :
    ∀ res : Dict, runProc script (tunnel script) = .ok res →
      (dictGet res "exitcode" = some (.int 0) →
        r.runOrSudo tunnel gp script shell = (.ok res, [script]))
      ∧ (∀ i : Int, i ≠ 0 → dictGet res "exitcode" = some (.int i) →
          r.runOrSudo tunnel gp script shell =
            ((r.sudo tunnel gp script shell none).1,
             script :: (r.sudo tunnel gp script shell none).2)) := by
  intro res hres
  constructor
  · intro hget
    rw [Remote.runOrSudo_first_ok r tunnel gp script shell res _ hres hget]
    rfl
  · intro i hi hget
    rw [Remote.runOrSudo_first_ok r tunnel gp script shell res _ hres hget]
    rw [if_pos (by simp [pyTruthy, hi])]

/-- Tunnel oracle whose every response reports user exit code 0. -/
def c7Tunnel : String → ProcResult :=
  fun _ => ⟨0, [("exitcode", [48])], []⟩

/-- Claim C7 witness: when the unprivileged run reports exit code 0,
`run_or_sudo` returns it after a single tunnel invocation. -/
theorem c7_run_or_sudo_policy_witness :
    (Remote.mk "origin").runOrSudo c7Tunnel (fun _ => "pw") "ls" true =
      (.ok [("cmd", Value.str "ls"), ("exitcode", Value.int 0)], ["ls"]) :=
  ((c7_run_or_sudo_policy ⟨"origin"⟩ c7Tunnel (fun _ => "pw") "ls" true)
      [("cmd", Value.str "ls"), ("exitcode", Value.int 0)] rfl).1 rfl

/-- Tunnel oracle whose every response contains the escalation sentinel,
used to drive `sudo` into its retry state. -/
def c8Tunnel : String → ProcResult :=
  fun _ => ⟨0, [("exitcode", [48]), ("sudo-needs-password", [])], []⟩

/-- Claim C8, counterexample: when `sudo` enters the retry state, the
password obtained from the operator (here "hunter2") does appear in a
field of the ExecutionResult returned to the caller: the `cmd` field
records the retry invocation, which embeds the password in clear. -/
theorem c8_password_in_result_counterexample :
    ((Remote.mk "host").sudo c8Tunnel (fun _ => "hunter2") "ls" true none).1 =
      .ok [("cmd", Value.str
              ("echo " ++ "hunter2" ++ " | sudo --preserve-env --stdin bash -c ls")),
           ("exitcode", Value.int 0), ("sudo-needs-password", Value.bytes [])] := rfl

/-- Claim C8 (amended): in the retry state the password is shell-quoted
into the retry invocation, and that invocation — password included — is
recorded verbatim in the `cmd` field of the ExecutionResult returned to
the caller; every other field of the result is determined by the returned
archive alone (decoding the same archive for any other command string
yields the same value at every key other than `cmd`), so the client code
itself never places the password in any field but `cmd`. -/
theorem c8_password_flow (r : Remote) (tunnel : String → ProcResult) (gp : String → String)
    (script : String) (shell : Bool) (user : Option String) (res d : Dict)
    (hres : runProc (probeInvocation (sudoScript script shell user))
        (tunnel (probeInvocation (sudoScript script shell user))) = .ok res)
    (hsent : dictHas res "sudo-needs-password" = true)
    (hretry : runProc
        (retryInvocation (gp (sudoPrompt (sudoScript script shell user) r.name))
          (sudoScript script shell user))
        (tunnel (retryInvocation (gp (sudoPrompt (sudoScript script shell user) r.name))
          (sudoScript script shell user))) = .ok d)
    (hnocmd : ∀ e ∈ (tunnel (retryInvocation
        (gp (sudoPrompt (sudoScript script shell user) r.name))
        (sudoScript script shell user))).archive, e.1 ≠ "cmd") :
    ((r.sudo tunnel gp script shell user).1 = .ok d)
    ∧ dictGet d "cmd" =
        some (.str ("echo " ++ shQuote (gp (sudoPrompt (sudoScript script shell user) r.name)) ++
          " | sudo --preserve-env --stdin " ++ sudoScript script shell user))
    ∧ (∀ k, k ≠ "cmd" → ∀ s2 d2,
        decodeArchive s2 (tunnel (retryInvocation
          (gp (sudoPrompt (sudoScript script shell user) r.name))
          (sudoScript script shell user))).archive = .ok d2 →
        dictGet d k = dictGet d2 k) := by
  obtain ⟨_, _, hdec⟩ := runProc_ok_elim _ _ _ hretry
  refine ⟨?_, ?_, ?_⟩
  · rw [Remote.sudo_probe_ok r tunnel gp script shell user res hres, if_pos hsent]
    rw [hretry]
  · rw [decodeArchive] at hdec
    rw [decodeEntries_get_absent _ _ _ hdec _ hnocmd]
    rfl
  · intro k hk s2 d2 hdec2
    rw [decodeArchive] at hdec hdec2
    refine decodeEntries_get_congr _ _ _ _ _ k hdec hdec2 ?_
    rw [show dictGet [("cmd", Value.str (retryInvocation
        (gp (sudoPrompt (sudoScript script shell user) r.name))
        (sudoScript script shell user)))] k = none from ?_,
      show dictGet [("cmd", Value.str s2)] k = none from ?_]
    · rw [dictGet]
      simp [Ne.symm hk, dictGet]
    · rw [dictGet]
      simp [Ne.symm hk, dictGet]

/-- Claim C8 witness: at the concrete retry with password "hunter2", the
`cmd` field of the returned result holds the password-bearing invocation. -/
theorem c8_password_flow_witness :
    dictGet [("cmd", Value.str ("echo hunter2 | sudo --preserve-env --stdin bash -c ls")),
             ("exitcode", Value.int 0), ("sudo-needs-password", Value.bytes [])] "cmd" =
      some (.str ("echo " ++ shQuote "hunter2" ++ " | sudo --preserve-env --stdin " ++
        sudoScript "ls" true none)) :=
  (c8_password_flow ⟨"host"⟩ c8Tunnel (fun _ => "hunter2") "ls" true none
      [("cmd", Value.str (probeInvocation (sudoScript "ls" true none))),
       ("exitcode", Value.int 0), ("sudo-needs-password", Value.bytes [])]
      [("cmd", Value.str ("echo hunter2 | sudo --preserve-env --stdin bash -c ls")),
       ("exitcode", Value.int 0), ("sudo-needs-password", Value.bytes [])]
      rfl rfl rfl (by intro e he; simp only [c8Tunnel] at he; fin_cases he <;> decide)).2.1

/-- Claim C9: a Remote value is immutable — its address string survives
`run`, `sudo` and `run_or_sudo` unchanged (the methods never assign to the
receiver, so the post-state Remote is the receiver itself) — and a second
`run` with the same script produces the same independent result as a first
call would, there being no client-visible shared state between calls. -/
theorem c9_remote_immutable (r : Remote) (tunnel : String → ProcResult) (gp : String → String)
    (script : String) (shell : Bool) (user : Option String) :
    ((r.runSt tunnel script).2 = r)
    ∧ ((r.sudoSt tunnel gp script shell user).2 = r)
    ∧ ((r.runOrSudoSt tunnel gp script shell).2 = r)
    ∧ (((r.runSt tunnel script).2.runSt tunnel script).1 = (r.runSt tunnel script).1)
    ∧ ((r.runSt tunnel script).2.name = r.name) :=
  ⟨rfl, rfl, rfl, rfl, rfl⟩

/-- Claim C10: the decoder passes every named archive entry through into
the result, not only the reserved names — under distinct entry names, each
non-`exitcode` entry appears under its own name with its bytes, the
`exitcode` entry appears parsed as an integer, and the sentinel name
`sudo-needs-password` (distinct from all reserved names) is present in the
decoded result exactly when the archive carries an entry of that name,
which is what `sudo`'s sentinel detection tests. -/
theorem c10_decoder_passthrough (script : String) (pr : ProcResult) (d : Dict)
    (hp : pr.archive.Pairwise (fun a b => a.1 ≠ b.1))
    (h : runProc script pr = .ok d) :
    (∀ e ∈ pr.archive, e.1 ≠ "exitcode" → dictGet d e.1 = some (.bytes e.2))
    ∧ (∀ e ∈ pr.archive, e.1 = "exitcode" →
        ∃ i, pyInt e.2 = some i ∧ dictGet d e.1 = some (.int i))
    ∧ (dictHas d "sudo-needs-password" =
        pr.archive.any (fun e => e.1 == "sudo-needs-password")) := by
  obtain ⟨_, _, hdec⟩ := runProc_ok_elim script pr d h
  rw [decodeArchive] at hdec
  refine ⟨?_, ?_, ?_⟩
  · intro e he hn
    have hmem := decodeEntries_get_mem _ _ _ hdec hp e he
    rw [if_neg hn] at hmem
    exact hmem
  · intro e he hn
    have hmem := decodeEntries_get_mem _ _ _ hdec hp e he
    rw [if_pos hn] at hmem
    have hok : (decodeEntries [("cmd", Value.str script)] pr.archive).isOk = true := by
      rw [hdec]
      rfl
    rw [decodeEntries_ok_iff, List.all_eq_true] at hok
    have hsome := hok e he
    rw [hn] at hsome
    simp only [bne_self_eq_false, Bool.false_or] at hsome
    obtain ⟨i, hi⟩ := Option.isSome_iff_exists.mp hsome
    refine ⟨i, hi, ?_⟩
    rw [hmem, hi]
    rfl
  · rw [decodeEntries_hasKey _ _ _ hdec]
    rw [show dictHas [("cmd", Value.str script)] "sudo-needs-password" = false from rfl,
      Bool.false_or]

/-- Claim C10 witness: a concrete archive with a non-reserved entry `foo`
and the sentinel shows both passed through into the decoded result. -/
theorem c10_decoder_passthrough_witness :
    dictGet [("cmd", Value.str "x"), ("exitcode", Value.int 4), ("foo", Value.bytes [1, 2]),
        ("sudo-needs-password", Value.bytes [])] "foo" = some (Value.bytes [1, 2]) :=
  ((c10_decoder_passthrough "x"
      ⟨0, [("exitcode", [52]), ("foo", [1, 2]), ("sudo-needs-password", [])], []⟩
      [("cmd", Value.str "x"), ("exitcode", Value.int 4), ("foo", Value.bytes [1, 2]),
       ("sudo-needs-password", Value.bytes [])]
      (by decide) rfl).1 ("foo", [1, 2]) (by decide) (by decide))

end GitRemoteRun
